import Mathlib

/-!
Verification of the guild-scoped event store and command protocol of
`dayssince-rs` (src/main.rs), shallowly embedded in Lean.

The store (`shuttle_persist::PersistInstance`) is modelled as an
association list from composite-key strings to records
`(description, since)`, with `since` in whole seconds (UTC).  Each slash
command of the bot is translated into a pure function over this store;
fallible store access is modelled with `Except`.  Rust string operations
(`starts_with`, `contains`, `trim_start_matches`, `String::pop`,
`format!`) are given executable Lean counterparts with the documented
Rust semantics.
-/

namespace DaysSince

/-- A stored record: `(description, since)`, `since` in seconds (UTC).
In the Rust source this is the serialized `(String, DateTime<Utc>)`. -/
abbrev EventRec := String × Int

/-- The persistent key-value store, as an association list in enumeration
order (`PersistInstance::list` order is unspecified, so we keep it
abstract as the list order). -/
abbrev Store := List (String × EventRec)

/-- Point read of the store (`persist.load(&key)`), `none` when absent. -/
def lookupKey : Store → String → Option EventRec
  | [], _ => none
  | (k', v) :: rest, k => if k' = k then some v else lookupKey rest k

/-- Unconditional upsert (`persist.save(&key, v)`): overwrite when the key
is present, append when absent. -/
def saveKey : Store → String → EventRec → Store
  | [], k, v => [(k, v)]
  | (k', v') :: rest, k, v =>
    if k' = k then (k, v) :: rest else (k', v') :: saveKey rest k v

/-- A `load` viewed as a fallible store access: errors when the key is
absent or the backend fails, like `PersistInstance::load`'s `Result`. -/
def loadOfStore (s : Store) (k : String) : Except Unit EventRec :=
  match lookupKey s k with
  | some v => Except.ok v
  | none => Except.error ()

/-- `leadsL p l`: the character list `p` is a leading segment of `l`.
This is the matching test underlying Rust `str::starts_with`. -/
def leadsL : List Char → List Char → Bool
  | [], _ => true
  | _ :: _, [] => false
  | c :: p, d :: l => c == d && leadsL p l

/-- Rust `str::starts_with(pat)`: `pat` is a leading segment of `s`. -/
def startsWithS (s pat : String) : Bool :=
  leadsL pat.data s.data

/-- Rust `str::contains(pat)` on character lists: `pat` occurs as a
contiguous substring, anywhere. -/
def containsSubL (pat : List Char) : List Char → Bool
  | [] => leadsL pat []
  | c :: t => leadsL pat (c :: t) || containsSubL pat t

/-- Rust `str::contains(pat)`: substring match anywhere. -/
def containsSub (s pat : String) : Bool :=
  containsSubL pat.data s.data

/-- One stripping pass loop for `str::trim_start_matches(pat)`: repeatedly
remove `pat` from the front while it is a prefix.  Fuel-indexed so the
definition is structural; each iteration removes at least one character,
so `l.length` fuel always suffices. -/
def trimGo (pat : List Char) : Nat → List Char → List Char
  | 0, l => l
  | f + 1, l =>
    if pat ≠ [] ∧ leadsL pat l = true then trimGo pat f (l.drop pat.length)
    else l

/-- Rust `str::trim_start_matches(pat)` with a string pattern: every
leading repetition of `pat` is removed. -/
def trimStartMatches (s pat : String) : String :=
  ⟨trimGo pat.data s.data.length s.data⟩

/-- Rust `str::trim_start_matches('*')` with a char pattern: drop every
leading occurrence of the character. -/
def trimStarChar (s : String) : String :=
  ⟨s.data.dropWhile (fun ch => ch == '*')⟩

/-- Rust `String::pop()`: remove the last character (no-op on `""`). -/
def strPop (s : String) : String :=
  ⟨s.data.dropLast⟩

/-- The composite key `format!("{guild}:{name}")`. -/
def mkKey (g n : String) : String :=
  g ++ ":" ++ n

/-- `autocomplete_name` (src/main.rs:19-30): given the result of
`persist.list()` (`none` models `Err`), the optional guild context and the
partial input, keep the keys starting with the bare guild id, strip every
leading `"{guild}:"` repetition, and keep the strings containing the
partial input; any failure yields `[]`. -/
def autocomplete_name (listR : Option (List String)) (guildOpt : Option String)
    (frag : String) : List String :=
  match listR, guildOpt with
  | some keys, some g =>
    ((keys.filter (fun key => startsWithS key g)).map
        (fun key => trimStartMatches key (g ++ ":"))).filter
      (fun name => containsSub name frag)
  | _, _ => []

/-- `create` (src/main.rs:36-54): fails when the key is already present,
otherwise saves `(text, now)` under the composite key.  The returned
store is the store after the call. -/
def createCmd (guildOpt : Option String) (name text : String) (now : Int)
    (s : Store) : Except String String × Store :=
  match guildOpt with
  | none => (Except.error "*Invalid guild", s)
  | some g =>
    let key := mkKey g name
    match lookupKey s key with
    | none => (Except.ok "*Event created.", saveKey s key (text, now))
    | some _ => (Except.error "*Event already exists.", s)

/-- `update` (src/main.rs:60-79): replaces the description, preserves the
stored timestamp. -/
def updateCmd (guildOpt : Option String) (name text : String)
    (s : Store) : Except String String × Store :=
  match guildOpt with
  | none => (Except.error "Invalid guild", s)
  | some g =>
    let key := mkKey g name
    match lookupKey s key with
    | some (_, time) => (Except.ok "*Event updated.", saveKey s key (text, time))
    | none => (Except.error "*Event does not exist.", s)

/-- The message rendered by `days_since`: `format!("It has been {} {} since {}.", d, if d == 1 \x7b "day" \x7d else \x7b "days" \x7d, text)`. -/
def renderDays (d : Int) (text : String) : String :=
  "It has been " ++ toString d ++ " " ++ (if d == 1 then "day" else "days")
    ++ " since " ++ text ++ "."

/-- `days_since` (src/main.rs:83-105): `(Utc::now() - time).num_days()` is
the signed second difference divided by 86400 with truncation toward
zero (`Int.tdiv`), exactly chrono's `Duration::num_days`. -/
def daysSinceCmd (guildOpt : Option String) (name : String) (now : Int)
    (s : Store) : Except String String :=
  match guildOpt with
  | none => Except.error "Invalid guild"
  | some g =>
    match lookupKey s (mkKey g name) with
    | some (text, time) => Except.ok (renderDays (Int.tdiv (now - time) 86400) text)
    | none => Except.error "*Event does not exist."

/-- `reset` (src/main.rs:109-128): loads the composite key, but saves the
refreshed record under the bare `guild` key (`persist.save(&guild, ...)`),
as the source does. -/
def resetCmd (guildOpt : Option String) (name : String) (now : Int)
    (s : Store) : Except String String × Store :=
  match guildOpt with
  | none => (Except.error "Invalid_guild", s)
  | some g =>
    match lookupKey s (mkKey g name) with
    | some (text, _) =>
      (Except.ok ("It has now been 0 days since " ++ text ++ "."),
        saveKey s g (text, now))
    | none => (Except.error "*Event does not exist.", s)

/-- The loop body of `list` (src/main.rs:155-166): for each enumerated key
starting with the bare guild id, load it and append
`name ++ ": " ++ text ++ "\n"`; a failing load aborts. -/
def listLoop (g : String) (loadE : String → Except Unit EventRec) :
    List String → Except Unit String
  | [] => Except.ok ""
  | item :: rest =>
    if startsWithS item g then
      match loadE item with
      | Except.error e => Except.error e
      | Except.ok (text, _) =>
        match listLoop g loadE rest with
        | Except.error e => Except.error e
        | Except.ok tail =>
          Except.ok (trimStartMatches item (g ++ ":") ++ ": " ++ text ++ "\n" ++ tail)
    else listLoop g loadE rest

/-- `list` (src/main.rs:151-176): enumerate (`listR`, `Except.error ()`
models a failing `persist.list()`), build the body, pop the trailing
newline, and reply `"*No events found"` when empty.  The dynamic text of
a propagated store error is abstracted as `"StoreFailure"`. -/
def listCmd (guildOpt : Option String) (listR : Except Unit (List String))
    (loadE : String → Except Unit EventRec) : Except String String :=
  match guildOpt with
  | none => Except.error "Invalid_guild"
  | some g =>
    match listR with
    | Except.error _ => Except.error "StoreFailure"
    | Except.ok keys =>
      match listLoop g loadE keys with
      | Except.error _ => Except.error "StoreFailure"
      | Except.ok body =>
        let body := strPop body
        if body = "" then Except.ok "*No events found"
        else Except.ok ("*" ++ body)

/-- The fields of `poise::CreateReply` relevant to the reply callback. -/
structure CreateReply where
  content : Option String
  ephemeral : Bool
deriving DecidableEq, Repr

/-- `maybe_make_ephemeral` (src/main.rs:178-187): a reply whose content
starts with `'*'` is made ephemeral with every leading `'*'` stripped;
anything else is returned unchanged. -/
def maybe_make_ephemeral (r : CreateReply) : CreateReply :=
  match r.content with
  | some c =>
    if startsWithS c "*" then { content := some (trimStarChar c), ephemeral := true }
    else r
  | none => r

/-- Modelled from the spec: the description of a successful load; used
only to state what `list` renders for a key it has loaded. -/
def getDesc : Except Unit EventRec → String
  | Except.ok (d, _) => d
  | Except.error _ => ""

/-- Modelled from the spec: the line `list` renders for one key. -/
def lineOf (g : String) (loadE : String → Except Unit EventRec) (k : String) : String :=
  trimStartMatches k (g ++ ":") ++ ": " ++ getDesc (loadE k)

/-- Modelled from the spec: newline-joined lines with no trailing
newline, the rendering §4.2 prescribes for `list`. -/
def specJoinLines : List String → String
  | [] => ""
  | [l] => l
  | l :: ls => l ++ "\n" ++ specJoinLines ls

/-! ### Store lemmas -/

theorem lookup_save_self (s : Store) (k : String) (v : EventRec) :
    lookupKey (saveKey s k v) k = some v := by
  induction s with
  | nil => simp [saveKey, lookupKey]
  | cons p rest ih =>
    obtain ⟨k', v'⟩ := p
    by_cases h : k' = k
    · subst h
      simp [saveKey, lookupKey]
    · simp [saveKey, lookupKey, h, ih]

theorem lookup_save_ne (s : Store) (k k' : String) (v : EventRec) (h : k' ≠ k) :
    lookupKey (saveKey s k v) k' = lookupKey s k' := by
  induction s with
  | nil => simp [saveKey, lookupKey, Ne.symm h]
  | cons p rest ih =>
    obtain ⟨k₀, v₀⟩ := p
    by_cases h₀ : k₀ = k
    · subst h₀
      simp [saveKey, lookupKey, Ne.symm h]
    · simp [saveKey, lookupKey, h₀, ih]

/-! ### Character-list lemmas about the separator -/

theorem mkKey_data (g n : String) :
    (mkKey g n).data = g.data ++ ':' :: n.data := by
  have h : (":" : String).data = [':'] := rfl
  simp [mkKey, String.data_append, h]

/-- A colon-free leading segment of `a ++ ':' :: b` is a leading segment
of `a` already. -/
theorem leadsL_colon_free (p a b : List Char) (hp : ':' ∉ p)
    (h : leadsL p (a ++ ':' :: b) = true) : leadsL p a = true := by
  induction p generalizing a with
  | nil => simp [leadsL]
  | cons c p' ih =>
    cases a with
    | nil =>
      exfalso
      simp only [List.nil_append, leadsL, Bool.and_eq_true, beq_iff_eq] at h
      exact hp (h.1 ▸ List.mem_cons_self c p')
    | cons d a' =>
      simp only [List.cons_append, leadsL, Bool.and_eq_true] at h ⊢
      exact ⟨h.1, ih a' (fun hm => hp (List.mem_cons_of_mem c hm)) h.2⟩

/-- Splitting at the separator is unambiguous when neither left part
contains the separator. -/
theorem sep_split_inj (a b x y : List Char) (ha : ':' ∉ a) (hb : ':' ∉ b)
    (h : a ++ ':' :: x = b ++ ':' :: y) : a = b ∧ x = y := by
  induction a generalizing b with
  | nil =>
    cases b with
    | nil => simpa using h
    | cons d b' =>
      exfalso
      simp only [List.nil_append, List.cons_append, List.cons.injEq] at h
      exact hb (h.1 ▸ List.mem_cons_self d b')
  | cons c a' ih =>
    cases b with
    | nil =>
      exfalso
      simp only [List.nil_append, List.cons_append, List.cons.injEq] at h
      exact ha (h.1 ▸ List.mem_cons_self c a')
    | cons d b' =>
      simp only [List.cons_append, List.cons.injEq] at h
      obtain ⟨rfl, h2⟩ := h
      obtain ⟨rfl, rfl⟩ := ih b' (fun hm => ha (List.mem_cons_of_mem _ hm))
        (fun hm => hb (List.mem_cons_of_mem _ hm)) h2
      exact ⟨rfl, rfl⟩

theorem takeWhile_until_colon (a x : List Char) (ha : ':' ∉ a) :
    (a ++ ':' :: x).takeWhile (fun c => c != ':') = a := by
  induction a with
  | nil => simp [List.takeWhile]
  | cons c a' ih =>
    have hc : c ≠ ':' := fun e => ha (e ▸ List.mem_cons_self c a')
    simp only [List.cons_append, List.takeWhile_cons, bne_iff_ne, ne_eq, hc,
      not_false_eq_true, if_true]
    rw [ih (fun hm => ha (List.mem_cons_of_mem c hm))]

/-- The community filter of `list`/`autocomplete_name` rejects every key
of a community `g` that the querying id `q` does not lead. -/
theorem startsWithS_mkKey_false (g n q : String) (hq : ':' ∉ q.data)
    (hnp : leadsL q.data g.data = false) : startsWithS (mkKey g n) q = false := by
  rw [startsWithS, mkKey_data]
  cases hcase : leadsL q.data (g.data ++ ':' :: n.data) with
  | false => rfl
  | true => exact absurd (leadsL_colon_free _ _ _ hq hcase) (by simp [hnp])

/-! ### C1: `reset` -/

/-- C1: the claim says `reset` saves under the composite key
`g ++ ":" ++ n`, preserving the description, setting `since := now`, so
that the elapsed days of that event become 0 and no other key changes.
The code instead saves under the bare guild key: starting from the store
`{"5:n" ↦ ("d", 0)}` with `now = 200000`, `reset` answers with the
0-days message but leaves `"5:n"` at `since = 0` (a later `days_since`
still reports 2 days) and writes a fresh record under the key `"5"`. -/
theorem c1_reset_saves_bare_key :
    resetCmd (some "5") "n" 200000 [(mkKey "5" "n", ("d", 0))] =
      (Except.ok "It has now been 0 days since d.",
        [(mkKey "5" "n", ("d", 0)), ("5", ("d", 200000))]) ∧
    lookupKey [(mkKey "5" "n", ("d", 0)), ("5", ("d", 200000))] (mkKey "5" "n") =
      some ("d", 0) ∧
    daysSinceCmd (some "5") "n" 200000 [(mkKey "5" "n", ("d", 0)), ("5", ("d", 200000))] =
      Except.ok (renderDays 2 "d") ∧
    renderDays 2 "d" ≠ renderDays 0 "d" :=
  ⟨rfl, rfl, rfl, by decide⟩

/-! ### C2: community isolation -/

/-- C2, counterexample: community ids `"1"` and `"12"` differ, yet the
event `"a"` of community `"12"` (sole stored key `"12:a"`) is returned
by `autocomplete_name` under community `"1"` and rendered by `list`
under community `"1"`, because the membership test is
`key.starts_with(&guild)` without the separator. -/
theorem c2_guild_id_leak :
    ("1" : String) ≠ "12" ∧ mkKey "12" "a" = "12:a" ∧
    autocomplete_name (some [mkKey "12" "a"]) (some "1") "" = ["12:a"] ∧
    listCmd (some "1") (Except.ok [mkKey "12" "a"])
        (loadOfStore [(mkKey "12" "a", ("d", 0))]) = Except.ok "*12:a: d" :=
  ⟨by decide, rfl, rfl, rfl⟩

/-- C2, amended: membership of a key in a community is decided by
`starts_with` on the bare community id, separator not included.  For a
colon-free querying id `g2` that is not a leading segment of `g1`, an
event created in `g1` is invisible to `list` and `autocomplete_name`
under `g2`; isolation can fail only when one community id is a string
prefix of the other's. -/
theorem c2_community_isolation (g1 g2 n frag : String)
    (loadE : String → Except Unit EventRec)
    (hq : ':' ∉ g2.data) (hnp : leadsL g2.data g1.data = false) :
    autocomplete_name (some [mkKey g1 n]) (some g2) frag = [] ∧
    listCmd (some g2) (Except.ok [mkKey g1 n]) loadE = Except.ok "*No events found" := by
  have hs : startsWithS (mkKey g1 n) g2 = false :=
    startsWithS_mkKey_false g1 n g2 hq hnp
  constructor
  · simp [autocomplete_name, List.filter, hs]
  · simp [listCmd, listLoop, hs, strPop]

/-- C2, witness: concrete instance of `c2_community_isolation`. -/
theorem c2_witness :
    autocomplete_name (some [mkKey "12" "a"]) (some "34") "" = [] ∧
    listCmd (some "34") (Except.ok [mkKey "12" "a"]) (fun _ => Except.error ()) =
      Except.ok "*No events found" :=
  c2_community_isolation "12" "34" "a" "" (fun _ => Except.error ())
    (by decide) (by decide)

/-! ### C3: injectivity of the composite key -/

/-- C3, counterexample: with a `':'` inside the community id, two
distinct `(community_id, name)` pairs share the composite key
`"a:b:c"`, so the encoding is not injective on arbitrary strings. -/
theorem c3_colon_collision :
    mkKey "a" "b:c" = mkKey "a:b" "c" ∧
    (("a", "b:c") : String × String) ≠ ("a:b", "c") :=
  ⟨rfl, by decide⟩

/-- C3, amended: the encoding `(g, n) ↦ g ++ ":" ++ n` is injective
provided the community ids are colon-free — which the code guarantees,
since a guild id is the decimal rendering of a numeric Discord id — even
when `':'` occurs inside a name; and the community id is unambiguously
reconstructed as the longest colon-free leading segment of the key. -/
theorem c3_key_injective (g1 g2 n1 n2 : String)
    (h1 : ':' ∉ g1.data) (h2 : ':' ∉ g2.data) :
    (mkKey g1 n1 = mkKey g2 n2 → g1 = g2 ∧ n1 = n2) ∧
    (⟨(mkKey g1 n1).data.takeWhile (fun c => c != ':')⟩ : String) = g1 := by
  constructor
  · intro h
    have hd := congrArg String.data h
    rw [mkKey_data, mkKey_data] at hd
    obtain ⟨hg, hn⟩ := sep_split_inj _ _ _ _ h1 h2 hd
    exact ⟨String.ext hg, String.ext hn⟩
  · rw [mkKey_data, takeWhile_until_colon _ _ h1]

/-- C3, witness: concrete instance of `c3_key_injective`, with a colon
inside the name. -/
theorem c3_witness :
    (mkKey "12" "a:b" = mkKey "12" "a:b" → "12" = "12" ∧ "a:b" = "a:b") ∧
    (⟨(mkKey "12" "a:b").data.takeWhile (fun c => c != ':')⟩ : String) = "12" :=
  c3_key_injective "12" "12" "a:b" "a:b" (by decide) (by decide)

/-! ### C4: rendering right after `create` -/

/-- C4, counterexample: `create(g, n, "t0")` followed immediately by
`days_since(g, n)` renders the plural `"It has been 0 days since t0."`,
not the singular `"... 0 day ..."` the claim states: the source chooses
`"day"` only when the count equals 1. -/
theorem c4_zero_days_plural :
    createCmd (some "5") "n" "t0" 100 [] =
      (Except.ok "*Event created.", [(mkKey "5" "n", ("t0", 100))]) ∧
    daysSinceCmd (some "5") "n" 100 [(mkKey "5" "n", ("t0", 100))] =
      Except.ok "It has been 0 days since t0." ∧
    ("It has been 0 days since t0." : String) ≠ "It has been 0 day since t0." :=
  ⟨rfl, rfl, by decide⟩

/-- C4, amended: `create(g, n, t0)` followed immediately by
`days_since(g, n)` returns `"It has been 0 days since t0."` with the
plural `"days"`; the singular `"day"` is used exactly when the computed
count equals 1. -/
theorem c4_create_then_days (g n t0 : String) (now : Int) (s : Store)
    (h : lookupKey s (mkKey g n) = none) :
    createCmd (some g) n t0 now s =
      (Except.ok "*Event created.", saveKey s (mkKey g n) (t0, now)) ∧
    daysSinceCmd (some g) n now (saveKey s (mkKey g n) (t0, now)) =
      Except.ok (renderDays 0 t0) ∧
    renderDays 0 t0 = "It has been 0 days since " ++ t0 ++ "." ∧
    (∀ (d : Int) (tx : String),
      (d = 1 → renderDays d tx = "It has been 1 day since " ++ tx ++ ".") ∧
      (d ≠ 1 → renderDays d tx =
        "It has been " ++ toString d ++ " " ++ "days" ++ " since " ++ tx ++ ".")) := by
  refine ⟨by simp [createCmd, h], ?_, ?_, ?_⟩
  · simp [daysSinceCmd, lookup_save_self, sub_self, Int.zero_tdiv]
  · rfl
  · intro d tx
    constructor
    · rintro rfl
      rfl
    · intro hd
      have hb : (d == 1) = false := by simpa using hd
      rw [renderDays, hb]
      rfl

/-- C4, witness: concrete instance of `c4_create_then_days`. -/
theorem c4_witness :
    createCmd (some "5") "n" "t0" 100 [] =
      (Except.ok "*Event created.", saveKey [] (mkKey "5" "n") ("t0", 100)) ∧
    daysSinceCmd (some "5") "n" 100 (saveKey [] (mkKey "5" "n") ("t0", 100)) =
      Except.ok (renderDays 0 "t0") ∧
    renderDays 0 "t0" = "It has been 0 days since " ++ "t0" ++ "." ∧
    (∀ (d : Int) (tx : String),
      (d = 1 → renderDays d tx = "It has been 1 day since " ++ tx ++ ".") ∧
      (d ≠ 1 → renderDays d tx =
        "It has been " ++ toString d ++ " " ++ "days" ++ " since " ++ tx ++ ".")) :=
  c4_create_then_days "5" "n" "t0" 100 [] rfl

/-! ### C5: the day count -/

/-- C5, counterexample: with a stored timestamp 1.5 days in the future
(`now - since = -129600` seconds), the code renders
`"It has been -1 days since d."`: chrono's `num_days` truncates toward
zero, whereas the claimed floor of −1.5 days is −2. -/
theorem c5_truncation_not_floor :
    daysSinceCmd (some "5") "n" 0 [(mkKey "5" "n", ("d", 129600))] =
      Except.ok (renderDays (-1) "d") ∧
    renderDays (-1) "d" = "It has been -1 days since d." ∧
    Int.fdiv ((0 : Int) - 129600) 86400 = -2 ∧
    ((-1 : Int) ≠ -2) :=
  ⟨rfl, rfl, by decide, by decide⟩

/-- C5, amended: for an existing event, `days_since` renders
`(now - since) / 86400` seconds with division truncated toward zero
(`Int.tdiv`), which agrees with the claimed floor exactly on
nonnegative differences; a negative count is rendered as-is, unclamped. -/
theorem c5_days_truncated (g n text : String) (since now : Int) (s : Store)
    (h : lookupKey s (mkKey g n) = some (text, since)) :
    daysSinceCmd (some g) n now s =
      Except.ok (renderDays (Int.tdiv (now - since) 86400) text) ∧
    (0 ≤ now - since →
      Int.tdiv (now - since) 86400 = Int.fdiv (now - since) 86400) := by
  constructor
  · simp [daysSinceCmd, h]
  · intro hge
    exact (Int.fdiv_eq_tdiv hge (by norm_num)).symm

/-- C5, witness: concrete instance of `c5_days_truncated`. -/
theorem c5_witness :
    daysSinceCmd (some "5") "n" 100000 [(mkKey "5" "n", ("d", 0))] =
      Except.ok (renderDays (Int.tdiv ((100000 : Int) - 0) 86400) "d") ∧
    (0 ≤ (100000 : Int) - 0 →
      Int.tdiv ((100000 : Int) - 0) 86400 = Int.fdiv ((100000 : Int) - 0) 86400) :=
  c5_days_truncated "5" "n" "d" 0 100000 [(mkKey "5" "n", ("d", 0))] rfl

/-! ### C6: `create` on an existing key -/

/-- C6: when the composite key is present, `create` fails with the
already-exists error and returns the store unchanged; when absent, it
saves `(text, now)` under the composite key and reports
`"*Event created."`, which the reply callback delivers as the ephemeral
text `"Event created."`. -/
theorem c6_create_exclusive (g n text : String) (now : Int) (s : Store) :
    (∀ v, lookupKey s (mkKey g n) = some v →
      createCmd (some g) n text now s = (Except.error "*Event already exists.", s)) ∧
    (lookupKey s (mkKey g n) = none →
      createCmd (some g) n text now s =
        (Except.ok "*Event created.", saveKey s (mkKey g n) (text, now)) ∧
      lookupKey (saveKey s (mkKey g n) (text, now)) (mkKey g n) = some (text, now) ∧
      maybe_make_ephemeral { content := some "*Event created.", ephemeral := false } =
        { content := some "Event created.", ephemeral := true }) := by
  constructor
  · intro v hv
    simp [createCmd, hv]
  · intro h
    exact ⟨by simp [createCmd, h], lookup_save_self s (mkKey g n) (text, now), rfl⟩

/-- C6, witness: both branches of `c6_create_exclusive` at concrete
stores. -/
theorem c6_witness :
    createCmd (some "5") "n" "t" 7 [(mkKey "5" "n", ("x", 0))] =
      (Except.error "*Event already exists.", [(mkKey "5" "n", ("x", 0))]) ∧
    (createCmd (some "5") "m" "t" 7 [] =
        (Except.ok "*Event created.", saveKey [] (mkKey "5" "m") ("t", 7)) ∧
      lookupKey (saveKey [] (mkKey "5" "m") ("t", 7)) (mkKey "5" "m") = some ("t", 7) ∧
      maybe_make_ephemeral { content := some "*Event created.", ephemeral := false } =
        { content := some "Event created.", ephemeral := true }) :=
  ⟨(c6_create_exclusive "5" "n" "t" 7 [(mkKey "5" "n", ("x", 0))]).1 ("x", 0) rfl,
    (c6_create_exclusive "5" "m" "t" 7 []).2 rfl⟩

/-! ### C7: `update` -/

/-- C7: for an existing event, `update` saves `(text, since)` under the
same composite key — description replaced, timestamp preserved — and
touches no other key; on a missing key it fails with the not-found
error and the store is unchanged. -/
theorem c7_update_preserves_since (g n text desc : String) (since : Int) (s : Store) :
    (lookupKey s (mkKey g n) = some (desc, since) →
      updateCmd (some g) n text s =
        (Except.ok "*Event updated.", saveKey s (mkKey g n) (text, since)) ∧
      lookupKey (saveKey s (mkKey g n) (text, since)) (mkKey g n) = some (text, since) ∧
      (∀ k', k' ≠ mkKey g n →
        lookupKey (saveKey s (mkKey g n) (text, since)) k' = lookupKey s k')) ∧
    (lookupKey s (mkKey g n) = none →
      updateCmd (some g) n text s = (Except.error "*Event does not exist.", s)) := by
  constructor
  · intro h
    exact ⟨by simp [updateCmd, h], lookup_save_self _ _ _,
      fun k' hk => lookup_save_ne s (mkKey g n) k' (text, since) hk⟩
  · intro h
    simp [updateCmd, h]

/-- C7, witness: both branches of `c7_update_preserves_since` at
concrete stores. -/
theorem c7_witness :
    (updateCmd (some "5") "n" "new" [(mkKey "5" "n", ("old", 3))] =
        (Except.ok "*Event updated.",
          saveKey [(mkKey "5" "n", ("old", 3))] (mkKey "5" "n") ("new", 3)) ∧
      lookupKey (saveKey [(mkKey "5" "n", ("old", 3))] (mkKey "5" "n") ("new", 3))
          (mkKey "5" "n") = some ("new", 3) ∧
      (∀ k', k' ≠ mkKey "5" "n" →
        lookupKey (saveKey [(mkKey "5" "n", ("old", 3))] (mkKey "5" "n") ("new", 3)) k' =
          lookupKey [(mkKey "5" "n", ("old", 3))] k')) ∧
    updateCmd (some "5") "m" "new" [] = (Except.error "*Event does not exist.", []) :=
  ⟨(c7_update_preserves_since "5" "n" "new" "old" 3 [(mkKey "5" "n", ("old", 3))]).1 rfl,
    (c7_update_preserves_since "5" "m" "new" "old" 3 []).2 rfl⟩

/-! ### C8: `autocomplete_name` -/

/-- C8, counterexample: the event named `"5:x"` in community `"5"` has a
name that contains the partial input `"5:x"`, yet `autocomplete_name`
returns `[]` for it: `trim_start_matches` strips the leading `"5:"`
repeatedly, so the recovered string is `"x"`, which does not contain the
partial input. -/
theorem c8_trim_mangles_names :
    mkKey "5" "5:x" = "5:5:x" ∧
    containsSub "5:x" "5:x" = true ∧
    autocomplete_name (some [mkKey "5" "5:x"]) (some "5") "5:x" = [] :=
  ⟨rfl, rfl, rfl⟩

/-- C8, amended: `autocomplete_name` returns, in store enumeration
order, exactly the stored keys that start with the bare community id
(separator not included) with every leading repetition of
`community_id + ":"` stripped, filtered to the recovered strings that
contain the partial input; a failed enumeration or a missing community
context yields `[]` rather than an error. -/
theorem c8_autocomplete_behavior (keys : List String) (g frag : String) :
    autocomplete_name none (some g) frag = [] ∧
    autocomplete_name (some keys) none frag = [] ∧
    autocomplete_name none none frag = [] ∧
    (autocomplete_name (some keys) (some g) frag).Sublist
      ((keys.filter (fun key => startsWithS key g)).map
        (fun key => trimStartMatches key (g ++ ":"))) ∧
    (∀ x, x ∈ autocomplete_name (some keys) (some g) frag ↔
      ∃ k, k ∈ keys ∧ startsWithS k g = true ∧
        x = trimStartMatches k (g ++ ":") ∧ containsSub x frag = true) := by
  refine ⟨rfl, rfl, rfl, List.filter_sublist _, ?_⟩
  intro x
  simp only [autocomplete_name, List.mem_filter, List.mem_map]
  constructor
  · rintro ⟨⟨k, ⟨hk, hq⟩, rfl⟩, hp⟩
    exact ⟨k, hk, hq, rfl, hp⟩
  · rintro ⟨k, hk, hq, rfl, hp⟩
    exact ⟨⟨k, ⟨hk, hq⟩, rfl⟩, hp⟩

/-! ### C9: `list` -/

theorem listLoop_all_ok (g : String) (loadE : String → Except Unit EventRec)
    (keys : List String)
    (h : ∀ k, k ∈ keys → startsWithS k g = true → ∃ v, loadE k = Except.ok v) :
    listLoop g loadE keys =
      Except.ok (((keys.filter (fun k => startsWithS k g)).map (lineOf g loadE)).foldr
        (fun l acc => l ++ "\n" ++ acc) "") := by
  induction keys with
  | nil => rfl
  | cons item rest ih =>
    have hrest : ∀ k, k ∈ rest → startsWithS k g = true → ∃ v, loadE k = Except.ok v :=
      fun k hk => h k (List.mem_cons_of_mem _ hk)
    by_cases hp : startsWithS item g = true
    · obtain ⟨⟨text, since⟩, hv⟩ := h item (List.mem_cons_self _ _) hp
      simp only [listLoop, hp, if_true, hv, ih hrest, List.filter_cons, List.map_cons,
        List.foldr_cons, lineOf, getDesc]
    · have hp' : startsWithS item g = false := by simpa using hp
      simp only [listLoop, hp', Bool.false_eq_true, if_false, ih hrest, List.filter_cons]

theorem listLoop_some_err (g : String) (loadE : String → Except Unit EventRec)
    (keys : List String)
    (h : ∃ k, k ∈ keys ∧ startsWithS k g = true ∧ loadE k = Except.error ()) :
    listLoop g loadE keys = Except.error () := by
  induction keys with
  | nil =>
    obtain ⟨k, hk, _⟩ := h
    exact absurd hk (List.not_mem_nil k)
  | cons item rest ih =>
    obtain ⟨k, hk, hpass, herr⟩ := h
    rcases List.mem_cons.mp hk with rfl | hkr
    · simp only [listLoop, hpass, if_true, herr]
    · by_cases hp : startsWithS item g = true
      · cases hload : loadE item with
        | error e => simp [listLoop, hp, hload]
        | ok v =>
          obtain ⟨text, since⟩ := v
          simp [listLoop, hp, hload, ih ⟨k, hkr, hpass, herr⟩]
      · have hp' : startsWithS item g = false := by simpa using hp
        simp [listLoop, hp', ih ⟨k, hkr, hpass, herr⟩]

theorem foldr_lines_data_ne_nil (l : String) (ls : List String) :
    ((l :: ls).foldr (fun x acc => x ++ "\n" ++ acc) "").data ≠ [] := by
  simp [String.data_append]

theorem strPop_foldr (lines : List String) :
    strPop (lines.foldr (fun l acc => l ++ "\n" ++ acc) "") = specJoinLines lines := by
  induction lines with
  | nil => rfl
  | cons l ls ih =>
    cases ls with
    | nil =>
      apply String.ext
      simp [strPop, String.data_append, List.dropLast_concat, specJoinLines]
    | cons l2 ls2 =>
      apply String.ext
      have hd := congrArg String.data ih
      simp only [strPop] at hd
      simp only [List.foldr_cons, strPop, String.data_append, specJoinLines,
        List.append_assoc] at hd ⊢
      have hne : l2.data ++ (['\n'] ++
          (List.foldr (fun x acc => x ++ "\n" ++ acc) "" ls2).data) ≠ [] := by
        simp
      have hne2 : ['\n'] ++ (l2.data ++ (['\n'] ++
          (List.foldr (fun x acc => x ++ "\n" ++ acc) "" ls2).data)) ≠ [] := by
        simp
      rw [List.dropLast_append_of_ne_nil _ hne2,
        List.dropLast_append_of_ne_nil _ hne, hd]

theorem lineOf_data_ne_nil (g : String) (loadE : String → Except Unit EventRec)
    (k : String) : (lineOf g loadE k).data ≠ [] := by
  simp [lineOf, String.data_append]

theorem specJoinLines_lines_ne_empty (g : String)
    (loadE : String → Except Unit EventRec) (k : String) (ks : List String) :
    specJoinLines (lineOf g loadE k :: ks.map (lineOf g loadE)) ≠ "" := by
  rw [Ne, String.ext_iff]
  cases ks with
  | nil => simpa [specJoinLines] using lineOf_data_ne_nil g loadE k
  | cons k2 ks2 => simp [specJoinLines, String.data_append]

/-- C9, counterexample: the single event of community `"5"` is named
`"5:x"` with description `"d"`; the claim requires the rendered line
`"5:x: d"`, but `list` renders `"x: d"` because `trim_start_matches`
strips every leading `"5:"` repetition from the key. -/
theorem c9_list_mangles_names :
    listCmd (some "5") (Except.ok [mkKey "5" "5:x"])
        (loadOfStore [(mkKey "5" "5:x", ("d", 0))]) = Except.ok "*x: d" ∧
    (Except.ok "*x: d" : Except String String) ≠ Except.ok "*5:x: d" :=
  ⟨rfl, fun h => absurd (Except.ok.inj h) (by decide)⟩

/-- C9, amended: `list` renders one line per enumerated key that starts
with the bare community id (separator not included), of the form
`name': description` where `name'` is the key with every leading
repetition of `community_id + ":"` removed, newline-joined with no
trailing newline; no matching keys yields `"*No events found"` and never
an error; a failing enumeration, or a failing load of any matching key,
aborts the whole call with an error and no partial output. -/
theorem c9_list_rendering (g : String) (keys : List String)
    (loadE : String → Except Unit EventRec) :
    listCmd (some g) (Except.error ()) loadE = Except.error "StoreFailure" ∧
    ((∃ k, k ∈ keys ∧ startsWithS k g = true ∧ loadE k = Except.error ()) →
      listCmd (some g) (Except.ok keys) loadE = Except.error "StoreFailure") ∧
    ((∀ k, k ∈ keys → startsWithS k g = true → ∃ v, loadE k = Except.ok v) →
      listCmd (some g) (Except.ok keys) loadE =
        (if keys.filter (fun k => startsWithS k g) = [] then
          Except.ok "*No events found"
         else
          Except.ok ("*" ++ specJoinLines
            ((keys.filter (fun k => startsWithS k g)).map (lineOf g loadE))))) := by
  refine ⟨rfl, ?_, ?_⟩
  · intro h
    simp [listCmd, listLoop_some_err g loadE keys h]
  · intro h
    rw [show listCmd (some g) (Except.ok keys) loadE =
        (match listLoop g loadE keys with
          | Except.error _ => Except.error "StoreFailure"
          | Except.ok body =>
            let body := strPop body
            if body = "" then Except.ok "*No events found"
            else Except.ok ("*" ++ body)) from rfl]
    rw [listLoop_all_ok g loadE keys h]
    simp only [strPop_foldr]
    cases hfl : keys.filter (fun k => startsWithS k g) with
    | nil => simp [specJoinLines]
    | cons k ks =>
      have hne := specJoinLines_lines_ne_empty g loadE k ks
      simp [hne]

/-- C9, witness: concrete instances of `c9_list_rendering`: a one-event
store renders `"*a: d"`, an empty community renders the no-events
indicator, and a failing load aborts. -/
theorem c9_witness :
    listCmd (some "5") (Except.ok [mkKey "5" "a"])
        (loadOfStore [(mkKey "5" "a", ("d", 3))]) = Except.ok "*a: d" ∧
    listCmd (some "5") (Except.ok []) (loadOfStore []) = Except.ok "*No events found" ∧
    listCmd (some "5") (Except.ok [mkKey "5" "a"]) (fun _ => Except.error ()) =
      Except.error "StoreFailure" := by
  refine ⟨?_, ?_, ?_⟩
  · have h := (c9_list_rendering "5" [mkKey "5" "a"]
        (loadOfStore [(mkKey "5" "a", ("d", 3))])).2.2
      (fun k hk _ => by
        rw [List.mem_singleton.mp hk]
        exact ⟨("d", 3), rfl⟩)
    rw [h]
    rfl
  · have h := (c9_list_rendering "5" ([] : List String) (loadOfStore [])).2.2
      (fun k hk => absurd hk (List.not_mem_nil k))
    rw [h]
    rfl
  · exact (c9_list_rendering "5" [mkKey "5" "a"] (fun _ => Except.error ())).2.1
      ⟨mkKey "5" "a", List.mem_singleton.mpr rfl, rfl, rfl⟩

/-! ### C10: the ephemeral-reply marker -/

theorem dropWhile_star_replicate (k : Nat) (t : List Char)
    (ht : ∀ c, t.head? = some c → c ≠ '*') :
    (List.replicate k '*' ++ t).dropWhile (fun ch => ch == '*') = t := by
  induction k with
  | zero =>
    cases t with
    | nil => rfl
    | cons c t' =>
      have hc : (c == '*') = false := by
        simpa using ht c rfl
      simp [List.dropWhile_cons, hc]
  | succ k ih =>
    simp [List.replicate_succ, List.dropWhile_cons, ih]

/-- C10: a reply whose content starts with `'*'` (leading stars
`replicate k '*'` with `k > 0`, rest `t` not starting with `'*'`) is
marked ephemeral with content exactly `t` — every leading `'*'`
stripped, not just the first; a reply whose content does not start with
`'*'` (`k = 0`), or has no content, is returned unchanged. -/
theorem c10_ephemeral_marker (r : CreateReply) :
    (r.content = none → maybe_make_ephemeral r = r) ∧
    (∀ (s : String) (k : Nat) (t : List Char), r.content = some s →
      s.data = List.replicate k '*' ++ t →
      (∀ c, t.head? = some c → c ≠ '*') →
      ((0 < k → maybe_make_ephemeral r =
          { content := some (String.mk t), ephemeral := true }) ∧
        (k = 0 → maybe_make_ephemeral r = r))) := by
  constructor
  · intro h
    simp [maybe_make_ephemeral, h]
  · intro s k t hc hs ht
    constructor
    · intro hk
      obtain ⟨k', rfl⟩ : ∃ k', k = k' + 1 :=
        ⟨k - 1, (Nat.succ_pred_eq_of_pos hk).symm⟩
      have hstart : startsWithS s "*" = true := by
        rw [startsWithS, show ("*" : String).data = ['*'] from rfl, hs,
          List.replicate_succ]
        simp [leadsL]
      simp only [maybe_make_ephemeral, hc, hstart, if_true, trimStarChar, hs,
        dropWhile_star_replicate _ t ht]
    · rintro rfl
      have hstart : startsWithS s "*" = false := by
        rw [startsWithS, show ("*" : String).data = ['*'] from rfl, hs]
        simp only [List.replicate_zero, List.nil_append]
        cases t with
        | nil => rfl
        | cons c t' =>
          have hc' : ('*' == c) = false := by
            have := ht c rfl
            simpa using Ne.symm this
          simp [leadsL, hc']
      simp [maybe_make_ephemeral, hc, hstart]

/-- C10, witness: `"**ab"` becomes the ephemeral `"ab"` (both stars
removed); `"ab"` passes through unchanged. -/
theorem c10_witness :
    maybe_make_ephemeral { content := some "**ab", ephemeral := false } =
      { content := some (String.mk ['a', 'b']), ephemeral := true } ∧
    maybe_make_ephemeral { content := some "ab", ephemeral := false } =
      { content := some "ab", ephemeral := false } :=
  ⟨((c10_ephemeral_marker _).2 "**ab" 2 ['a', 'b'] rfl rfl
      (fun c hc => by simp at hc; subst hc; decide)).1 (by decide),
    ((c10_ephemeral_marker _).2 "ab" 0 ['a', 'b'] rfl rfl
      (fun c hc => by simp at hc; subst hc; decide)).2 rfl⟩

end DaysSince
